import Mathlib

/-!
Verification of the coordinate-normalization logic in
`src/django_migration_fix.py` (function `convert_gps_strings_to_floats`
and its reverse `reverse_conversion`).

The Python routine iterates over all `GPSPath` rows; for each row it
converts a string `latitude`/`longitude` to `float` (leaving non-string
values untouched), then calls `save()`; a `ValueError`/`TypeError`
during the row's processing is caught and a warning naming the row id is
printed, after which the loop continues with the next row.

Embedding choices, recorded here so that the definitions can be diffed
against the source:

* A database row is `GPSPoint` (id plus the two coordinate fields); a
  field value is a `Value` (string, float, int, or Python `None`),
  covering the `isinstance(x, str)` dispatch the code performs.
* Python floats obtained from `float(<str>)` are modelled by `PFloat`:
  an exact decimal rational, or one of the special values `inf`,
  `neginf`, `nan` that `float()` can return.  Rounding of the decimal
  value to binary64 (and overflow of huge exponents to infinity) is not
  modelled: no property below performs float arithmetic or compares the
  parses of two different strings, so the exact-rational refinement is
  faithful for everything proved here.
* `pyFloatOfString` embeds CPython's `float(str)` parse: optional
  surrounding whitespace, optional sign, then either a (case-insensitive)
  `inf`/`infinity`/`nan` literal or a decimal number with optional
  fractional part, optional `e`/`E` exponent, and single underscores
  allowed between digits.  `none` models `ValueError`.  (Non-ASCII
  digits and non-ASCII whitespace, which CPython also accepts, are not
  modelled; no property below involves them.)
* The routine communicates only through side effects (it returns
  `None`): `gps_point.save()` and the warning `print` are reified as an
  `Effect` trace, produced in loop order.  The spec's `normalize`
  abstraction reads the two output sets off this trace: the records
  passed to `save()` form the `normalized` set, and each printed warning
  is a `failed` entry `(id, UNPARSEABLE)` — `UNPARSEABLE` being the
  spec's name (§7) for the routine's single failure path, the caught
  conversion exception.
-/

namespace GPSFix

/-- The two failure-reason tags named by the spec (§7). -/
inductive Reason where
  | UNPARSEABLE
  | OUT_OF_RANGE
deriving DecidableEq

/-- Model of a Python float as produced by `float(<string>)`: an exact
decimal rational or one of the special values. -/
inductive PFloat where
  | finite (q : ℚ)
  | inf
  | neginf
  | nan
deriving DecidableEq

/-- Model of a Python value stored in a coordinate field: a string, a
float, an int, or `None`.  Only the string/non-string distinction is
inspected by the code (`isinstance(x, str)`). -/
inductive Value where
  | str (s : String)
  | float (f : PFloat)
  | int (n : ℤ)
  | nullval
deriving DecidableEq

/-- A `GPSPath` row: its id and the two coordinate fields. -/
structure GPSPoint where
  id : ℕ
  latitude : Value
  longitude : Value
deriving DecidableEq

/-- ASCII whitespace stripped by Python's `float(str)` before parsing
(`\t`, `\n`, `\v`, `\f`, `\r`, the file/group/record/unit separators,
and space). -/
def isPySpace (c : Char) : Bool :=
  c == ' ' || c == '\t' || c == '\n' || c == '\r' ||
    c.toNat == 11 || c.toNat == 12 || (28 ≤ c.toNat && c.toNat ≤ 31)

/-- Remove leading and trailing whitespace, as `float(str)` does. -/
def stripPySpace (cs : List Char) : List Char :=
  ((cs.dropWhile isPySpace).reverse.dropWhile isPySpace).reverse

/-- Consume an optional single leading sign; `true` means negative. -/
def parseOptSign : List Char → Bool × List Char
  | '-' :: cs => (true, cs)
  | '+' :: cs => (false, cs)
  | cs => (false, cs)

/-- ASCII decimal digit test. -/
def isDigit (c : Char) : Bool := '0' ≤ c && c ≤ '9'

/-- Numeric value of an ASCII digit. -/
def digitVal (c : Char) : ℕ := c.toNat - 48

/-- Continue a `digitpart` after at least one digit has been read:
further digits are consumed, and a single underscore is allowed only
between two digits (Python's `digitpart ::= digit (["_"] digit)*`).
Returns the accumulated value, the number of digits read, and the
unconsumed rest. -/
def digitPartAux : List Char → ℕ → ℕ → ℕ × ℕ × List Char
  | [], acc, n => (acc, n, [])
  | c :: cs, acc, n =>
    if isDigit c then digitPartAux cs (acc * 10 + digitVal c) (n + 1)
    else if c = '_' then
      match cs with
      | c2 :: cs2 =>
        if isDigit c2 then digitPartAux cs2 (acc * 10 + digitVal c2) (n + 1)
        else (acc, n, c :: cs)
      | [] => (acc, n, c :: cs)
    else (acc, n, c :: cs)

/-- A `digitpart` must start with a digit; returns its value, its digit
count, and the unconsumed rest, or `none` if no digit starts here. -/
def digitPart : List Char → Option (ℕ × ℕ × List Char)
  | c :: cs =>
    if isDigit c then some (digitPartAux cs (digitVal c) 1) else none
  | [] => none

/-- Python's `number ::= [digitpart] "." digitpart | digitpart ["."]`:
an unsigned decimal with an optional single decimal point, returned as
an exact rational together with the unconsumed rest. -/
def parseNumber (cs : List Char) : Option (ℚ × List Char) :=
  match digitPart cs with
  | some (ip, _, rest) =>
    match rest with
    | '.' :: rest2 =>
      match digitPart rest2 with
      | some (fp, n, rest3) => some ((ip : ℚ) + (fp : ℚ) / 10 ^ n, rest3)
      | none => some ((ip : ℚ), rest2)
    | _ => some ((ip : ℚ), rest)
  | none =>
    match cs with
    | '.' :: rest2 =>
      match digitPart rest2 with
      | some (fp, n, rest3) => some ((fp : ℚ) / 10 ^ n, rest3)
      | none => none
    | _ => none

/-- Python's `floatnumber ::= number [exponent]` with
`exponent ::= ("e" | "E") [sign] digitpart`. -/
def parseFloatNumber (cs : List Char) : Option (ℚ × List Char) :=
  match parseNumber cs with
  | some (q, rest) =>
    match rest with
    | 'e' :: rest2 | 'E' :: rest2 =>
      match parseOptSign rest2 with
      | (negE, rest3) =>
        match digitPart rest3 with
        | some (e, _, rest4) =>
          some (q * (10 : ℚ) ^ (if negE then -(e : ℤ) else (e : ℤ)), rest4)
        | none => none
    | _ => some (q, rest)
  | none => none

/-- CPython's `float(str)`: strip whitespace, take an optional sign,
then either a case-insensitive `inf`/`infinity`/`nan` literal or a
decimal `floatnumber` consuming the whole remainder.  `none` models
`ValueError`. -/
def pyFloatOfString (s : String) : Option PFloat :=
  let cs := stripPySpace s.toList
  match parseOptSign cs with
  | (neg, cs1) =>
    let low := cs1.map Char.toLower
    if low = ['i', 'n', 'f'] ∨ low = ['i', 'n', 'f', 'i', 'n', 'i', 't', 'y'] then
      some (if neg then PFloat.neginf else PFloat.inf)
    else if low = ['n', 'a', 'n'] then
      some PFloat.nan
    else
      match parseFloatNumber cs1 with
      | some (q, []) => some (PFloat.finite (if neg then -q else q))
      | _ => none

/-- One coordinate field, as the loop body treats it:
`if isinstance(x, str): x = float(x)` — a string is parsed (with
`none` modelling the raised `ValueError`), any other value is kept
untouched. -/
def coerceCoord : Value → Option Value
  | .str s => (pyFloatOfString s).map Value.float
  | v => some v

/-- The body of the `try` block for one row up to `save()`: convert
`latitude` then `longitude`; `none` models the `ValueError`/`TypeError`
caught by the `except` (in which case `save()` is never reached). -/
def convertPoint (p : GPSPoint) : Option GPSPoint :=
  match coerceCoord p.latitude, coerceCoord p.longitude with
  | some lat, some lon => some ⟨p.id, lat, lon⟩
  | _, _ => none

/-- An observable side effect of the migration loop: a `gps_point.save()`
call (with the row as saved), or the warning printed for a row the
`except` branch caught, identified by the row id it names. -/
inductive Effect where
  | save (p : GPSPoint)
  | printWarning (id : ℕ)
deriving DecidableEq

/-- `convert_gps_strings_to_floats`: the migration loop over all rows, as
its trace of effects in loop order.  Each row yields either a `save` of
the converted row or the caught-exception warning naming the row id; the
loop then continues with the next row. -/
def convert_gps_strings_to_floats : List GPSPoint → List Effect
  | [] => []
  | p :: rest =>
    (match convertPoint p with
     | some p' => Effect.save p'
     | none => Effect.printWarning p.id) :: convert_gps_strings_to_floats rest

/-- The records the routine passed to `save()`, in order: the spec's
`normalized` output set. -/
def normalizedOf (effs : List Effect) : List GPSPoint :=
  effs.filterMap fun e =>
    match e with
    | .save p => some p
    | .printWarning _ => none

/-- The spec's `failed` output set read off the trace: one `(id, reason)`
entry per printed warning, tagged `UNPARSEABLE` — the spec's name (§7)
for the routine's single failure path, the caught conversion error. -/
def failedOf (effs : List Effect) : List (ℕ × Reason) :=
  effs.filterMap fun e =>
    match e with
    | .save _ => none
    | .printWarning i => some (i, Reason.UNPARSEABLE)

/-- The spec's `normalize` contract (§4.1) instantiated by the source
loop: the pair of the `normalized` and `failed` output sets. -/
def normalize (db : List GPSPoint) : List GPSPoint × List (ℕ × Reason) :=
  (normalizedOf (convert_gps_strings_to_floats db),
   failedOf (convert_gps_strings_to_floats db))

/-- `reverse_conversion`, the reverse operation of the data migration:
its body is `pass`, so it produces no effects on any database state. -/
def reverse_conversion (_db : List GPSPoint) : List Effect := []

/-- Replay one effect against a database state: `save p` overwrites the
row with `p`'s id; a printed warning changes nothing. -/
def applyEffect (db : List GPSPoint) : Effect → List GPSPoint
  | .save p => db.map fun q => if q.id = p.id then p else q
  | .printWarning _ => db

/-- Replay a whole effect trace against a database state. -/
def applyEffects (effs : List Effect) (db : List GPSPoint) : List GPSPoint :=
  effs.foldl applyEffect db

/-- A coordinate value that is already numeric (float or int) and whose
number lies within `[lo, hi]` — the precondition of spec §4.1 step 1. -/
def numericInRange (lo hi : ℚ) : Value → Bool
  | .float (.finite q) => decide (lo ≤ q) && decide (q ≤ hi)
  | .int n => decide (lo ≤ (n : ℚ)) && decide ((n : ℚ) ≤ hi)
  | _ => false

/-- Whether a value is a Python string. -/
def Value.isStr : Value → Bool
  | .str _ => true
  | _ => false

/-- Whether a value is a float with a finite number in `[lo, hi]` — the
spec's post-normalization invariant (§3) for one axis. -/
def finiteInRange (lo hi : ℚ) : Value → Bool
  | .float (.finite q) => decide (lo ≤ q) && decide (q ≤ hi)
  | _ => false

/-- The spec's description (§4.1 step 2) of the forms the parse step is
claimed to accept, written from the spec's words for comparison with
the code's `pyFloatOfString`: optional leading/trailing whitespace and
an optional sign around a run of digits with at most one decimal point
and at least one digit — nothing else. -/
def decimalCore (cs : List Char) : Bool :=
  match cs.dropWhile isDigit with
  | [] => !(cs.takeWhile isDigit).isEmpty
  | c :: rest2 =>
    c = '.' && (!(cs.takeWhile isDigit).isEmpty || !rest2.isEmpty) &&
      rest2.all isDigit

/-- Acceptance predicate written from the spec's words (§4.1 step 2):
a standard decimal form — optional surrounding whitespace, optional
sign, digits with at most one decimal point. -/
def specStandardDecimal (s : String) : Bool :=
  decimalCore (parseOptSign (stripPySpace s.toList)).2

/-! ### Structural lemmas about the loop and its derived output sets -/

/-- The effect emitted for a single row. -/
def rowEffect (p : GPSPoint) : Effect :=
  match convertPoint p with
  | some p' => Effect.save p'
  | none => Effect.printWarning p.id

theorem convert_eq_map (db : List GPSPoint) :
    convert_gps_strings_to_floats db = db.map rowEffect := by
  induction db with
  | nil => rfl
  | cons p rest ih =>
    simp only [convert_gps_strings_to_floats, List.map_cons, ih, rowEffect]

theorem convert_append (a b : List GPSPoint) :
    convert_gps_strings_to_floats (a ++ b) =
      convert_gps_strings_to_floats a ++ convert_gps_strings_to_floats b := by
  simp [convert_eq_map]

theorem normalizedOf_append (a b : List Effect) :
    normalizedOf (a ++ b) = normalizedOf a ++ normalizedOf b := by
  simp [normalizedOf]

theorem failedOf_append (a b : List Effect) :
    failedOf (a ++ b) = failedOf a ++ failedOf b := by
  simp [failedOf]

theorem normalized_eq_filterMap (db : List GPSPoint) :
    (normalize db).1 = db.filterMap convertPoint := by
  induction db with
  | nil => rfl
  | cons p rest ih =>
    simp only [normalize, convert_gps_strings_to_floats] at ih ⊢
    cases h : convertPoint p <;>
      simp [normalizedOf, List.filterMap_cons, h] at ih ⊢ <;> exact ih

theorem failed_eq_filter (db : List GPSPoint) :
    (normalize db).2 =
      (db.filter fun p => (convertPoint p).isNone).map
        fun p => (p.id, Reason.UNPARSEABLE) := by
  induction db with
  | nil => rfl
  | cons p rest ih =>
    simp only [normalize, convert_gps_strings_to_floats] at ih ⊢
    cases h : convertPoint p <;>
      simp [failedOf, List.filter_cons, h] at ih ⊢ <;> exact ih

theorem coerceCoord_of_not_str {v : Value} (h : v.isStr = false) :
    coerceCoord v = some v := by
  cases v <;> simp_all [Value.isStr, coerceCoord]

theorem coerceCoord_not_str {v w : Value} (h : coerceCoord v = some w) :
    w.isStr = false := by
  cases v with
  | str s =>
    simp only [coerceCoord, Option.map_eq_some'] at h
    obtain ⟨f, _, rfl⟩ := h
    rfl
  | float f => simp only [coerceCoord, Option.some.injEq] at h; subst h; rfl
  | int n => simp only [coerceCoord, Option.some.injEq] at h; subst h; rfl
  | nullval => simp only [coerceCoord, Option.some.injEq] at h; subst h; rfl

theorem convertPoint_self_of_not_str {p : GPSPoint}
    (h1 : p.latitude.isStr = false) (h2 : p.longitude.isStr = false) :
    convertPoint p = some p := by
  simp [convertPoint, coerceCoord_of_not_str h1, coerceCoord_of_not_str h2]

theorem convertPoint_out {p p' : GPSPoint} (h : convertPoint p = some p') :
    p'.id = p.id ∧ p'.latitude.isStr = false ∧ p'.longitude.isStr = false := by
  unfold convertPoint at h
  cases hla : coerceCoord p.latitude with
  | none => simp [hla] at h
  | some lat =>
    cases hlo : coerceCoord p.longitude with
    | none => simp [hla, hlo] at h
    | some lon =>
      simp only [hla, hlo, Option.some.injEq] at h
      subst h
      exact ⟨rfl, coerceCoord_not_str hla, coerceCoord_not_str hlo⟩

theorem convertPoint_fix {p p' : GPSPoint} (h : convertPoint p = some p') :
    convertPoint p' = some p' :=
  convertPoint_self_of_not_str (convertPoint_out h).2.1 (convertPoint_out h).2.2

theorem filterMap_convertPoint_fixed : ∀ {l : List GPSPoint},
    (∀ p ∈ l, convertPoint p = some p) → l.filterMap convertPoint = l := by
  intro l
  induction l with
  | nil => intro _; rfl
  | cons p rest ih =>
    intro h
    simp only [List.filterMap_cons, h p (List.mem_cons_self p rest)]
    exact congrArg (p :: ·) (ih fun q hq => h q (List.mem_cons_of_mem p hq))

theorem normalize_of_all_fixed {l : List GPSPoint}
    (h : ∀ p ∈ l, convertPoint p = some p) : normalize l = (l, []) := by
  have e2 : (l.filter fun p => (convertPoint p).isNone) = [] := by
    rw [List.filter_eq_nil_iff]
    intro p hp
    simp [h p hp]
  have h1 := normalized_eq_filterMap l
  have h2 := failed_eq_filter l
  rw [filterMap_convertPoint_fixed h] at h1
  rw [e2, List.map_nil] at h2
  cases hn : normalize l with
  | mk a b =>
    rw [hn] at h1 h2
    simp only [Prod.mk.injEq]
    exact ⟨h1, h2⟩

theorem mem_normalized {db : List GPSPoint} {p' : GPSPoint}
    (h : p' ∈ (normalize db).1) : ∃ p ∈ db, convertPoint p = some p' := by
  rw [normalized_eq_filterMap] at h
  exact List.mem_filterMap.mp h

theorem save_mem_trace {db : List GPSPoint} {q : GPSPoint}
    (h : Effect.save q ∈ convert_gps_strings_to_floats db) :
    ∃ p ∈ db, convertPoint p = some q := by
  induction db with
  | nil => simp [convert_gps_strings_to_floats] at h
  | cons p rest ih =>
    simp only [convert_gps_strings_to_floats, List.mem_cons] at h
    rcases h with h | h
    · cases hc : convertPoint p with
      | none => simp [hc] at h
      | some p' =>
        simp only [hc] at h
        injection h with hqp
        exact ⟨p, List.mem_cons_self p rest, by rw [hc, hqp]⟩
    · obtain ⟨r, hr, hc⟩ := ih h
      exact ⟨r, List.mem_cons_of_mem p hr, hc⟩

theorem applyEffects_preserve {effs : List Effect} {db : List GPSPoint}
    {p : GPSPoint} (hp : p ∈ db)
    (h : ∀ q, Effect.save q ∈ effs → q.id ≠ p.id) :
    p ∈ applyEffects effs db := by
  induction effs generalizing db with
  | nil => exact hp
  | cons e effs ih =>
    have step : p ∈ applyEffect db e := by
      cases e with
      | save q =>
        have hne : p.id ≠ q.id := fun hid =>
          h q (List.mem_cons_self _ _) hid.symm
        exact List.mem_map.mpr ⟨p, hp, by simp [hne]⟩
      | printWarning i => exact hp
    exact ih step fun q hq => h q (List.mem_cons_of_mem e hq)

/-! ### Lemmas about the decimal parse -/

theorem isDigit_ne_underscore {c : Char} (h : isDigit c = true) : c ≠ '_' := by
  intro hc
  subst hc
  exact absurd h (by decide)

theorem digitPartAux_rest : ∀ (cs : List Char), (∀ c ∈ cs, c ≠ '_') →
    ∀ acc n, (digitPartAux cs acc n).2.2 = cs.dropWhile isDigit := by
  intro cs
  induction cs with
  | nil => intro _ acc n; rfl
  | cons c cs ih =>
    intro hnu acc n
    by_cases hd : isDigit c = true
    · rw [digitPartAux.eq_def]
      simp only [hd, if_true, List.dropWhile_cons_of_pos hd]
      exact ih (fun x hx => hnu x (List.mem_cons_of_mem c hx)) _ _
    · have hc : ¬ c = '_' := hnu c (List.mem_cons_self c cs)
      rw [digitPartAux.eq_def]
      simp [hd, hc, List.dropWhile_cons_of_neg (by simpa using hd)]

theorem dropWhile_append_all {xs ys : List Char}
    (h : ∀ c ∈ xs, isDigit c = true) :
    (xs ++ ys).dropWhile isDigit = ys.dropWhile isDigit := by
  induction xs with
  | nil => rfl
  | cons x xs ih =>
    simp only [List.cons_append,
      List.dropWhile_cons_of_pos (h x (List.mem_cons_self x xs))]
    exact ih fun c hc => h c (List.mem_cons_of_mem x hc)

theorem digitPart_digits {d : Char} {t u : List Char}
    (hd : isDigit d = true) (ht : ∀ c ∈ t, isDigit c = true)
    (hnu : ∀ c ∈ u, c ≠ '_')
    (hrest : u.dropWhile isDigit = u) :
    ∃ v n, digitPart (d :: (t ++ u)) = some (v, n, u) := by
  have hnu2 : ∀ c ∈ t ++ u, c ≠ '_' := by
    intro c hc
    rcases List.mem_append.mp hc with hc | hc
    · exact isDigit_ne_underscore (ht c hc)
    · exact hnu c hc
  have haux := digitPartAux_rest (t ++ u) hnu2 (digitVal d) 1
  rw [dropWhile_append_all ht, hrest] at haux
  rcases haux2 : digitPartAux (t ++ u) (digitVal d) 1 with ⟨v, n2, r⟩
  rw [haux2] at haux
  have hr : r = u := haux
  subst hr
  refine ⟨v, n2, ?_⟩
  simp only [digitPart, hd, if_true, haux2]

theorem parseFloatNumber_decimal : ∀ {cs : List Char}, decimalCore cs = true →
    ∃ q, parseFloatNumber cs = some (q, []) := by
  intro cs h
  have hsplit := List.takeWhile_append_dropWhile (p := isDigit) (l := cs)
  rcases hdrop : cs.dropWhile isDigit with _ | ⟨c, rest2⟩
  · -- the whole string is one nonempty digit run
    simp only [decimalCore, hdrop] at h
    have hall := List.dropWhile_eq_nil_iff.mp hdrop
    rw [hdrop, List.append_nil] at hsplit
    rw [hsplit] at h
    rcases cs with _ | ⟨d, t⟩
    · simp at h
    · obtain ⟨v, n, hdp⟩ :=
        digitPart_digits (t := t) (u := [])
          (hall d (List.mem_cons_self d t))
          (fun x hx => hall x (List.mem_cons_of_mem d hx))
          (by intro x hx; simp at hx) rfl
      rw [List.append_nil] at hdp
      exact ⟨(v : ℚ), by simp only [parseFloatNumber, parseNumber, hdp]⟩
  · -- the digit run is followed by a decimal point and a digit run
    simp only [decimalCore, hdrop, Bool.and_eq_true, decide_eq_true_eq] at h
    obtain ⟨⟨hc, hA⟩, hB⟩ := h
    subst hc
    have hall2 : ∀ x ∈ rest2, isDigit x = true := List.all_eq_true.mp hB
    have hnodig : ¬ isDigit '.' = true := by decide
    rcases htake : cs.takeWhile isDigit with _ | ⟨d, t⟩
    · -- no integer part: ".digits"
      rw [htake, hdrop] at hsplit
      have hcs : cs = '.' :: rest2 := hsplit.symm
      subst hcs
      rw [htake] at hA
      rcases rest2 with _ | ⟨d2, t2⟩
      · simp at hA
      · obtain ⟨v, n, hdp⟩ :=
          digitPart_digits (t := t2) (u := [])
            (hall2 d2 (List.mem_cons_self d2 t2))
            (fun x hx => hall2 x (List.mem_cons_of_mem d2 hx))
            (by intro x hx; simp at hx) rfl
        rw [List.append_nil] at hdp
        have hdpdot : digitPart ('.' :: d2 :: t2) = none := by
          simp only [digitPart, if_neg hnodig]
        exact ⟨(v : ℚ) / 10 ^ n,
          by simp [parseFloatNumber, parseNumber, hdpdot, hdp]⟩
    · -- integer part present: "digits.digits" or "digits."
      have hd : isDigit d = true :=
        List.mem_takeWhile_imp (htake ▸ List.mem_cons_self d t)
      have ht : ∀ x ∈ t, isDigit x = true := fun x hx =>
        List.mem_takeWhile_imp (htake ▸ List.mem_cons_of_mem d hx)
      rw [htake, hdrop] at hsplit
      have hcs : cs = d :: (t ++ '.' :: rest2) := hsplit.symm
      subst hcs
      have hnu : ∀ x ∈ '.' :: rest2, x ≠ '_' := by
        intro x hx
        rcases List.mem_cons.mp hx with hx | hx
        · subst hx; decide
        · exact isDigit_ne_underscore (hall2 x hx)
      have hrest : ('.' :: rest2).dropWhile isDigit = '.' :: rest2 :=
        List.dropWhile_cons_of_neg hnodig
      obtain ⟨v, n, hdp⟩ := digitPart_digits hd ht hnu hrest
      rcases rest2 with _ | ⟨d2, t2⟩
      · have hdpnil : digitPart ([] : List Char) = none := rfl
        exact ⟨(v : ℚ),
          by simp [parseFloatNumber, parseNumber, hdp, hdpnil]⟩
      · obtain ⟨v2, n2, hdp2⟩ :=
          digitPart_digits (t := t2) (u := [])
            (hall2 d2 (List.mem_cons_self d2 t2))
            (fun x hx => hall2 x (List.mem_cons_of_mem d2 hx))
            (by intro x hx; simp at hx) rfl
        rw [List.append_nil] at hdp2
        refine ⟨(v : ℚ) + (v2 : ℚ) / 10 ^ n2, ?_⟩
        simp only [parseFloatNumber, parseNumber, hdp, hdp2]

theorem pyFloat_accepts_spec {s : String} (h : specStandardDecimal s = true) :
    (pyFloatOfString s).isSome = true := by
  unfold specStandardDecimal at h
  rcases hps : parseOptSign (stripPySpace s.toList) with ⟨neg, cs1⟩
  rw [hps] at h
  obtain ⟨q, hq⟩ := parseFloatNumber_decimal h
  simp only [pyFloatOfString, hps]
  by_cases h1 : cs1.map Char.toLower = ['i', 'n', 'f'] ∨
      cs1.map Char.toLower = ['i', 'n', 'f', 'i', 'n', 'i', 't', 'y']
  · rw [if_pos h1]
    rfl
  · rw [if_neg h1]
    by_cases h2 : cs1.map Char.toLower = ['n', 'a', 'n']
    · rw [if_pos h2]
      rfl
    · rw [if_neg h2]
      simp [hq]

/-! ### Claim theorems -/

/-- C1 (counterexample): the claim that out-of-range coordinates are
routed to `failed` with reason `OUT_OF_RANGE` is false.  The input
record with latitude `"91.0"` (outside `[-90, 90]`) is converted and
saved: it lands in the `normalized` output with latitude `91.0`
unclamped, the `failed` output is empty, and no
`(id, OUT_OF_RANGE)` entry exists. -/
theorem C1_out_of_range_counterexample :
    normalize [⟨1, .str "91.0", .str "0.0"⟩] =
      ([⟨1, .float (.finite 91), .float (.finite 0)⟩], []) ∧
    (1, Reason.OUT_OF_RANGE) ∉ (normalize [⟨1, .str "91.0", .str "0.0"⟩]).2 := by
  constructor
  · with_unfolding_all rfl
  · intro hm
    rw [show (normalize [⟨1, .str "91.0", .str "0.0"⟩]).2 = [] from by
      with_unfolding_all rfl] at hm
    exact absurd hm (List.not_mem_nil _)

/-- C1 (amended): the code performs no range validation at all.  Every
record whose coordinates parse — in range or not — is placed (with the
parsed, unclamped values) in the `normalized` output, and no `failed`
entry ever carries reason `OUT_OF_RANGE`: the only failure reason the
routine produces is `UNPARSEABLE`. -/
theorem C1_no_range_validation :
    ∀ (db : List GPSPoint) (p p' : GPSPoint), p ∈ db →
      convertPoint p = some p' →
      p' ∈ (normalize db).1 ∧
      ∀ e ∈ (normalize db).2, e.2 = Reason.UNPARSEABLE := by
  intro db p p' hp hc
  constructor
  · rw [normalized_eq_filterMap]
    exact List.mem_filterMap.mpr ⟨p, hp, hc⟩
  · intro e he
    rw [failed_eq_filter] at he
    obtain ⟨r, _, he⟩ := List.mem_map.mp he
    rw [← he]

/-- C1 witness: the amended theorem applied to the record with
latitude `"91.0"`. -/
theorem C1_no_range_validation_witness :
    (⟨1, .float (.finite 91), .float (.finite 0)⟩ : GPSPoint) ∈
      (normalize [⟨1, .str "91.0", .str "0.0"⟩]).1 :=
  (C1_no_range_validation [⟨1, .str "91.0", .str "0.0"⟩]
    ⟨1, .str "91.0", .str "0.0"⟩ ⟨1, .float (.finite 91), .float (.finite 0)⟩
    (List.mem_singleton.mpr rfl) (by with_unfolding_all rfl)).1

/-- C2: a record on which conversion fails contributes exactly the
entry `(id, UNPARSEABLE)` to the `failed` output, and the loop
continues: the records before and after it are processed exactly as
they would be on their own (the embedding is a total function — the
caught `ValueError`/`TypeError` is the only exception the loop body
can raise, so the routine never aborts). -/
theorem C2_failure_routed_and_continues :
    ∀ (db1 db2 : List GPSPoint) (p : GPSPoint), convertPoint p = none →
      (normalize (db1 ++ p :: db2)).2 =
        (normalize db1).2 ++ (p.id, Reason.UNPARSEABLE) :: (normalize db2).2 ∧
      (normalize (db1 ++ p :: db2)).1 = (normalize db1).1 ++ (normalize db2).1 ∧
      (p.id, Reason.UNPARSEABLE) ∈ (normalize (db1 ++ p :: db2)).2 := by
  intro db1 db2 p hc
  have ht : convert_gps_strings_to_floats (db1 ++ p :: db2) =
      convert_gps_strings_to_floats db1 ++
        Effect.printWarning p.id :: convert_gps_strings_to_floats db2 := by
    rw [convert_append]
    simp [convert_gps_strings_to_floats, hc]
  have h2 : (normalize (db1 ++ p :: db2)).2 =
      (normalize db1).2 ++ (p.id, Reason.UNPARSEABLE) :: (normalize db2).2 := by
    show failedOf _ = failedOf _ ++ _ :: failedOf _
    rw [ht, failedOf_append]
    simp [failedOf]
  refine ⟨h2, ?_, ?_⟩
  · show normalizedOf _ = normalizedOf _ ++ normalizedOf _
    rw [ht, normalizedOf_append]
    simp [normalizedOf]
  · rw [h2]
    exact List.mem_append_right _ (List.mem_cons_self _ _)

/-- C2 witness: the theorem applied to the spec's example — a record
with longitude `"abc"` followed by a good record. -/
theorem C2_failure_routed_witness :
    (7, Reason.UNPARSEABLE) ∈
      (normalize ([] ++ ⟨7, .float (.finite 1), .str "abc"⟩ ::
        [⟨8, .float (.finite 2), .float (.finite 3)⟩])).2 :=
  (C2_failure_routed_and_continues [] [⟨8, .float (.finite 2), .float (.finite 3)⟩]
    ⟨7, .float (.finite 1), .str "abc"⟩ (by with_unfolding_all rfl)).2.2

/-- C3 (counterexample): the post-normalization invariant — finite,
in-range coordinates — is false.  The record with latitude `"nan"` and
longitude `"200.5"` survives into `normalized` carrying a NaN latitude
and a longitude outside `[-180, 180]`. -/
theorem C3_invariant_counterexample :
    normalize [⟨2, .str "nan", .str "200.5"⟩] =
      ([⟨2, .float .nan, .float (.finite (401 / 2))⟩], []) ∧
    finiteInRange (-90) 90 (Value.float .nan) = false ∧
    finiteInRange (-180) 180 (Value.float (.finite (401 / 2))) = false := by
  refine ⟨by with_unfolding_all rfl, rfl, by with_unfolding_all rfl⟩

/-- C3 (amended): the invariant that actually holds after
normalization is only that no surviving record has a string
coordinate — every string was either parsed to a float or the record
failed; nothing constrains the numeric value (it may be out of range,
infinite, or NaN). -/
theorem C3_normalized_not_string :
    ∀ (db : List GPSPoint) (p : GPSPoint), p ∈ (normalize db).1 →
      p.latitude.isStr = false ∧ p.longitude.isStr = false := by
  intro db p hp
  obtain ⟨r, _, hc⟩ := mem_normalized hp
  exact ⟨(convertPoint_out hc).2.1, (convertPoint_out hc).2.2⟩

/-- C3 witness: the amended theorem applied to a record with one
string and one int coordinate. -/
theorem C3_normalized_not_string_witness :
    (Value.float (.finite (3 / 2))).isStr = false ∧
    (Value.int 2).isStr = false :=
  C3_normalized_not_string [⟨3, .str "1.5", .int 2⟩]
    ⟨3, .float (.finite (3 / 2)), .int 2⟩
    (by
      rw [show (normalize [⟨3, .str "1.5", .int 2⟩]).1 =
        [⟨3, .float (.finite (3 / 2)), .int 2⟩] from by with_unfolding_all rfl]
      exact List.mem_singleton.mpr rfl)

/-- C4 (counterexample): the claim that the routine is pure — no
external I/O, no mutation, persistence left to the caller — is false.
On a single record with string coordinates the routine's effect trace
is not empty: it contains a `save()` call issued by the routine
itself, and the row as saved differs from the input row (its
coordinate fields were overwritten with the parsed floats). -/
theorem C4_side_effects_counterexample :
    convert_gps_strings_to_floats [⟨4, .str "1.0", .str "2.0"⟩] =
      [Effect.save ⟨4, .float (.finite 1), .float (.finite 2)⟩] ∧
    (⟨4, .float (.finite 1), .float (.finite 2)⟩ : GPSPoint) ≠
      ⟨4, .str "1.0", .str "2.0"⟩ := by
  refine ⟨by with_unfolding_all rfl, ?_⟩
  intro h
  simp at h

/-- C4 (amended): the routine is deterministic, synchronous and
single-pass, but it is not effect-free and it does not return output
sets: it persists every successfully converted record itself by
calling `save()` (one save per converted record), prints one warning
per failed record, and returns nothing — persistence is performed
inside the routine, not left to the caller. -/
theorem C4_routine_persists_itself :
    ∀ (db : List GPSPoint) (p : GPSPoint), p ∈ db →
      (∀ p', convertPoint p = some p' →
        Effect.save p' ∈ convert_gps_strings_to_floats db) ∧
      (convertPoint p = none →
        Effect.printWarning p.id ∈ convert_gps_strings_to_floats db) := by
  intro db p hp
  constructor
  · intro p' hc
    rw [convert_eq_map]
    exact List.mem_map.mpr ⟨p, hp, by simp [rowEffect, hc]⟩
  · intro hc
    rw [convert_eq_map]
    exact List.mem_map.mpr ⟨p, hp, by simp [rowEffect, hc]⟩

/-- C4 witness: the amended theorem applied to a record with string
coordinates `"1.0"`, `"2.0"`. -/
theorem C4_routine_persists_itself_witness :
    Effect.save ⟨4, .float (.finite 1), .float (.finite 2)⟩ ∈
      convert_gps_strings_to_floats [⟨4, .str "1.0", .str "2.0"⟩] :=
  (C4_routine_persists_itself [⟨4, .str "1.0", .str "2.0"⟩]
    ⟨4, .str "1.0", .str "2.0"⟩ (List.mem_singleton.mpr rfl)).1
    ⟨4, .float (.finite 1), .float (.finite 2)⟩ (by with_unfolding_all rfl)

/-- C5 (counterexample): the claim that the parse accepts *exactly*
the standard decimal forms is false: Python's `float()` also accepts
`"inf"` and scientific notation `"1e5"`, neither of which is a
standard decimal form (optional whitespace, optional sign, digits
with at most one decimal point). -/
theorem C5_exactness_counterexample :
    pyFloatOfString "inf" = some PFloat.inf ∧
    specStandardDecimal "inf" = false ∧
    pyFloatOfString "1e5" = some (PFloat.finite 100000) ∧
    specStandardDecimal "1e5" = false := by
  refine ⟨by with_unfolding_all rfl, by decide,
    by with_unfolding_all rfl, by decide⟩

/-- C5 (amended): the parse step accepts every standard decimal form
(optional surrounding whitespace, optional sign, digits with at most
one decimal point) and rejects empty strings, plain non-numeric text
and multiple decimal points — but it additionally accepts scientific
notation, case-insensitive infinity/NaN literals, and single
underscores between digits. -/
theorem C5_parse_accepts :
    (∀ s : String, specStandardDecimal s = true →
      (pyFloatOfString s).isSome = true) ∧
    pyFloatOfString "" = none ∧
    pyFloatOfString "abc" = none ∧
    pyFloatOfString "1.2.3" = none ∧
    (pyFloatOfString "1e5").isSome = true ∧
    (pyFloatOfString "inf").isSome = true ∧
    (pyFloatOfString "nan").isSome = true ∧
    (pyFloatOfString "1_000.5").isSome = true := by
  refine ⟨fun s h => pyFloat_accepts_spec h, by with_unfolding_all rfl,
    by with_unfolding_all rfl, by with_unfolding_all rfl,
    by with_unfolding_all rfl, by with_unfolding_all rfl,
    by with_unfolding_all rfl, by with_unfolding_all rfl⟩

/-- C5 witness: the acceptance half of the amended theorem applied to
the standard decimal string with whitespace, sign and decimal point. -/
theorem C5_parse_accepts_witness :
    (pyFloatOfString " -45.125 ").isSome = true :=
  C5_parse_accepts.1 " -45.125 " (by decide)

/-- C6: a batch in which every record already has numeric (float or
int) coordinates within the valid ranges passes through unchanged:
`normalize` returns exactly the input records and an empty `failed`
output. -/
theorem C6_numeric_in_range_passthrough :
    ∀ (db : List GPSPoint),
      (∀ p ∈ db, numericInRange (-90) 90 p.latitude = true ∧
        numericInRange (-180) 180 p.longitude = true) →
      normalize db = (db, []) := by
  intro db h
  apply normalize_of_all_fixed
  intro p hp
  have h1 := (h p hp).1
  have h2 := (h p hp).2
  have l1 : p.latitude.isStr = false := by
    cases hv : p.latitude <;> simp_all [numericInRange, Value.isStr]
  have l2 : p.longitude.isStr = false := by
    cases hv : p.longitude <;> simp_all [numericInRange, Value.isStr]
  exact convertPoint_self_of_not_str l1 l2

/-- C6 witness: the theorem applied to one record with in-range float
coordinates. -/
theorem C6_numeric_in_range_passthrough_witness :
    normalize [⟨5, .float (.finite 45), .float (.finite (-122))⟩] =
      ([⟨5, .float (.finite 45), .float (.finite (-122))⟩], []) :=
  C6_numeric_in_range_passthrough _ (by
    intro p hp
    rw [List.mem_singleton] at hp
    subst hp
    exact ⟨by with_unfolding_all rfl, by with_unfolding_all rfl⟩)

/-- C7: the two outputs partition the input — the `normalized` output
is exactly the in-order image of the convertible records, the `failed`
output is exactly the in-order list of `(id, UNPARSEABLE)` entries of
the unconvertible ones (so a batch of N valid and M invalid records
yields exactly N and M entries), and the lengths add up to the input
length. -/
theorem C7_partition_counts_order :
    ∀ (db : List GPSPoint),
      (normalize db).1 = db.filterMap convertPoint ∧
      (normalize db).2 = (db.filter fun p => (convertPoint p).isNone).map
        (fun p => (p.id, Reason.UNPARSEABLE)) ∧
      (normalize db).1.length + (normalize db).2.length = db.length := by
  intro db
  refine ⟨normalized_eq_filterMap db, failed_eq_filter db, ?_⟩
  rw [normalized_eq_filterMap, failed_eq_filter, List.length_map]
  induction db with
  | nil => rfl
  | cons p rest ih =>
    rw [List.filterMap_cons, List.filter_cons]
    cases hc : convertPoint p <;> simp [hc] <;> omega

/-- C8: `normalize` is idempotent on its own `normalized` output —
running it again returns the same records unchanged with an empty
`failed` output (after the first pass no coordinate is a string, so
the second pass converts nothing and fails nothing). -/
theorem C8_normalize_idempotent :
    ∀ (db : List GPSPoint),
      normalize ((normalize db).1) = ((normalize db).1, []) := by
  intro db
  apply normalize_of_all_fixed
  intro p hp
  obtain ⟨r, _, hc⟩ := mem_normalized hp
  exact convertPoint_fix hc

/-- C9: per-record conversion is atomic with respect to persistence —
for a record whose conversion raises, `save()` is never invoked (no
save effect in the trace carries its id, assuming ids are unique), so
replaying the migration's effects against the database leaves that
record exactly as it was, never partially converted. -/
theorem C9_failed_record_not_saved :
    ∀ (db : List GPSPoint) (p : GPSPoint), (db.map GPSPoint.id).Nodup →
      p ∈ db → convertPoint p = none →
      (∀ q, Effect.save q ∈ convert_gps_strings_to_floats db →
        q.id ≠ p.id) ∧
      p ∈ applyEffects (convert_gps_strings_to_floats db) db := by
  intro db p hnd hp hc
  have hsave : ∀ q, Effect.save q ∈ convert_gps_strings_to_floats db →
      q.id ≠ p.id := by
    intro q hq hid
    obtain ⟨r, hr, hcr⟩ := save_mem_trace hq
    have hrid : q.id = r.id := (convertPoint_out hcr).1
    have hrp : r ≠ p := by
      intro he
      rw [he, hc] at hcr
      exact Option.noConfusion hcr
    exact hrp (List.inj_on_of_nodup_map hnd hr hp (hrid ▸ hid))
  exact ⟨hsave, applyEffects_preserve hp hsave⟩

/-- C9 witness: the theorem applied to a single record whose latitude
`"abc"` fails to convert. -/
theorem C9_failed_record_not_saved_witness :
    (⟨9, .str "abc", .str "2.0"⟩ : GPSPoint) ∈
      applyEffects
        (convert_gps_strings_to_floats [⟨9, .str "abc", .str "2.0"⟩])
        [⟨9, .str "abc", .str "2.0"⟩] :=
  (C9_failed_record_not_saved [⟨9, .str "abc", .str "2.0"⟩]
    ⟨9, .str "abc", .str "2.0"⟩ (by simp) (List.mem_singleton.mpr rfl)
    (by with_unfolding_all rfl)).2

/-- C10: the reverse migration `reverse_conversion` is a no-op — its
body is `pass`, so on every database state it produces no effects and
replaying it leaves every record exactly as it was. -/
theorem C10_reverse_conversion_noop :
    ∀ (db : List GPSPoint), reverse_conversion db = [] ∧
      applyEffects (reverse_conversion db) db = db :=
  fun _ => ⟨rfl, rfl⟩

end GPSFix
